import Mathlib

/-!
Verification development for the CLIProxyAPI request-orchestration core.

Go strings are modelled as their sequences of characters (`List Char`); the
byte-level encoding is out of model, which is faithful for the ASCII model
names, markers and keys these components operate on.  Go's `int`/`int64`
are modelled as `Int` (the values handled by these components stay far from
the 64-bit boundaries); Go integer division (truncation toward zero) is
`Int.tdiv`.  SQLite tables keyed by strings are modelled as association
lists, and each SQL statement is modelled by the state transformation its
upsert/conflict clause performs.
-/

namespace CLIProxy

/-- Whitespace predicate used by `strings.TrimSpace` (ASCII fragment of
Go's `unicode.IsSpace`). -/
def isGoSpace (c : Char) : Bool :=
  c = ' ' || c = '\t' || c = '\n' || c = '\r' || c = Char.ofNat 11 || c = Char.ofNat 12

/-- ASCII lowercasing of one character, as done by `strings.ToLower` on the
ASCII range. -/
def toLowerChar (c : Char) : Char :=
  if 65 ≤ c.toNat ∧ c.toNat ≤ 90 then Char.ofNat (c.toNat + 32) else c

/-- `strings.TrimSpace`: drop leading and trailing whitespace. -/
def goTrim (l : List Char) : List Char :=
  ((l.dropWhile isGoSpace).reverse.dropWhile isGoSpace).reverse

/-- `strings.ToLower` (ASCII model). -/
def goLower (l : List Char) : List Char :=
  l.map toLowerChar

/-- `strings.Contains` for a substring needle. -/
def goContainsSub (l sub : List Char) : Bool :=
  l.tails.any (fun t => sub.isPrefixOf t)

/-- `strings.Index`: position of the leftmost occurrence of `sub` in `l`. -/
def goIndexOf (l sub : List Char) : Option Nat :=
  (List.range (l.length + 1)).find? (fun i => sub.isPrefixOf (l.drop i))

/-- `strings.TrimSuffix`: remove one trailing copy of `suf` when present. -/
def goTrimSuf (l suf : List Char) : List Char :=
  if suf.isSuffixOf l then l.take (l.length - suf.length) else l

/-- Result of `thinking.ParseSuffix`: the model name, the raw thinking-budget
suffix and whether one was present. -/
structure ThinkingParse where
  modelName : List Char
  rawSuffix : List Char
  hasBudget : Bool
  deriving Repr, DecidableEq

/-- Modelled from the spec: `internal/thinking.ParseSuffix` is not under the
provided sources (only its callers are).  The spec describes it as parsing
`name(suffix)` forms, the canonical key being the name with the trailing
thinking-budget suffix `(…)` stripped.  We parse a trailing parenthesised
suffix: when the string contains a `(` and ends with `)`, the model name is
the part before the first `(` and the raw suffix the material between. -/
def parseThinkingSuffix (l : List Char) : ThinkingParse :=
  if (l.takeWhile (fun c => c ≠ '(')).length < l.length ∧ l.getLast? = some ')' then
    { modelName := l.takeWhile (fun c => c ≠ '(')
      rawSuffix := (l.drop ((l.takeWhile (fun c => c ≠ '(')).length + 1)).dropLast
      hasBudget := true }
  else
    { modelName := l, rawSuffix := [], hasBudget := false }

/-- `policy.NormaliseModelKey` (list level): lowercased, trimmed model name
without the thinking budget suffix. -/
def normaliseModelKeyL (l : List Char) : List Char :=
  goLower (goTrim (parseThinkingSuffix (goTrim l)).modelName)

/-- `policy.NormaliseModelKey` on strings. -/
def NormaliseModelKey (s : String) : String :=
  ⟨normaliseModelKeyL s.data⟩

/-- The literal `claude-opus-4-6` ( `claudeOpus46Prefix` in the source). -/
def opus46Pre : List Char := "claude-opus-4-6".data

/-- The literal `claude-opus-4-5-20251101` (`claudeOpus45FallbackPrefix`). -/
def opus45Pre : List Char := "claude-opus-4-5-20251101".data

/-- The literal `-thinking` (`claudeThinkingSuffixLiteral`). -/
def thinkingSuf : List Char := "-thinking".data

/-- `policy.StripThinkingVariant`: lowercase, trim, drop a trailing
`-thinking`. -/
def stripThinkingVariantL (l : List Char) : List Char :=
  goTrimSuf (goLower (goTrim l)) thinkingSuf

/-- `policy.StripThinkingVariant` on strings. -/
def StripThinkingVariant (s : String) : String :=
  ⟨stripThinkingVariantL s.data⟩

/-- `policy.DowngradeClaudeOpus46` (list level). -/
def downgradeClaudeOpus46L (model : List Char) : List Char × Bool :=
  let trimmed := goTrim model
  if trimmed = [] then (model, false)
  else
    let parsed := parseThinkingSuffix trimmed
    let base := parsed.modelName
    let baseLower := goLower (goTrim base)
    if opus46Pre.isPrefixOf baseLower then
      let remainder := base.drop opus46Pre.length
      let rewritten := opus45Pre ++ remainder
      let rewritten :=
        if parsed.hasBudget then rewritten ++ '(' :: parsed.rawSuffix ++ [')']
        else rewritten
      (rewritten, true)
    else (model, false)

/-- `policy.DowngradeClaudeOpus46` on strings. -/
def DowngradeClaudeOpus46 (s : String) : String × Bool :=
  let r := downgradeClaudeOpus46L s.data
  (⟨r.1⟩, r.2)

/-- The `for i := 1; i < len(parts)-1; i++` loop of `policy.MatchWildcard`:
consume the internal wildcard segments left to right. -/
def consumeSegs : List (List Char) → List Char → Bool
  | [], _ => true
  | seg :: rest, v =>
    if seg = [] then consumeSegs rest v
    else
      match goIndexOf v seg with
      | none => false
      | some idx => consumeSegs rest (v.drop (idx + seg.length))

/-- `policy.MatchWildcard` (list level): case-insensitive matching where
`*` matches any substring. -/
def matchWildcardL (pattern value : List Char) : Bool :=
  let p := goLower (goTrim pattern)
  let v := goLower (goTrim value)
  if p = [] || v = [] then false
  else if ¬ p.contains '*' then p == v
  else
    let parts := p.splitOn '*'
    let pre := parts.headD []
    let step1 : Option (List Char) :=
      if pre = [] then some v
      else if pre.isPrefixOf v then some (v.drop pre.length)
      else none
    match step1 with
    | none => false
    | some v1 =>
      let suf := parts.getLastD []
      let step2 : Option (List Char) :=
        if suf = [] then some v1
        else if suf.isSuffixOf v1 then some (v1.take (v1.length - suf.length))
        else none
      match step2 with
      | none => false
      | some v2 => consumeSegs ((parts.drop 1).dropLast) v2

/-- `policy.MatchWildcard` on strings. -/
def MatchWildcard (pattern value : String) : Bool :=
  matchWildcardL pattern.data value.data

/-- The right-trimming half of `goTrim`. -/
def goTrimRight (l : List Char) : List Char :=
  (l.reverse.dropWhile isGoSpace).reverse

/-- `billing.PriceMicroUSDPer1M`: three rates in micro-USD per million
tokens. -/
structure PriceMicroUSDPer1M where
  prompt : Int
  completion : Int
  cached : Int
  deriving Repr, DecidableEq

/-- `billing.costMicroUSD`: zero for non-positive tokens or rate, otherwise
`(tokens*rate + 500000) / 1000000` in Go integer (truncating) division. -/
def costMicroUSD (tokens microUSDPer1M : Int) : Int :=
  if tokens ≤ 0 ∨ microUSDPer1M ≤ 0 then 0
  else Int.tdiv (tokens * microUSDPer1M + 500000) 1000000

/-- Round-half-up of `x / 1_000_000` as the specification words it:
`⌊(x + 500000) / 1000000⌋`. -/
def roundHalfUpMicro (x : Int) : Int :=
  Int.fdiv (x + 500000) 1000000

/-- Token detail of a `coreusage.Record`. -/
structure UsageDetail where
  inputTokens : Int
  outputTokens : Int
  reasoningTokens : Int
  cachedTokens : Int
  totalTokens : Int
  deriving Repr, DecidableEq

/-- A `coreusage.Record` as consumed by `UsagePersistPlugin.HandleUsage`
(the `RequestedAt` timestamp only feeds the Asia/Shanghai day key, which is
orthogonal to the priced quantities and omitted here). -/
structure UsageRecord where
  apiKey : String
  failed : Bool
  detail : UsageDetail
  deriving Repr, DecidableEq

/-- The numeric columns of a `billing.DailyUsageRow` delta. -/
structure DailyUsageDelta where
  requests : Int
  failedRequests : Int
  inputTokens : Int
  outputTokens : Int
  reasoningTokens : Int
  cachedTokens : Int
  totalTokens : Int
  costMicroUSD : Int
  deriving Repr, DecidableEq

/-- Go's `max64`. -/
def max64 (a b : Int) : Int := if a > b then a else b

/-- The pure core of `UsagePersistPlugin.HandleUsage`: given the record and
the price already resolved for its model (price resolution is modelled
separately), build the delta row passed to `AddUsage`, or drop the record
when the client key is blank. -/
def handleUsageDelta (record : UsageRecord) (price : PriceMicroUSDPer1M) :
    Option DailyUsageDelta :=
  if goTrim record.apiKey.data = [] then none
  else
    let d := record.detail
    let total0 :=
      if d.totalTokens = 0 then
        d.inputTokens + d.outputTokens + d.reasoningTokens + d.cachedTokens
      else d.totalTokens
    let total := if total0 < 0 then 0 else total0
    let promptTokens :=
      if d.inputTokens - d.cachedTokens < 0 then 0 else d.inputTokens - d.cachedTokens
    let completionTokens := d.outputTokens + d.reasoningTokens
    let cost := costMicroUSD promptTokens price.prompt
      + costMicroUSD d.cachedTokens price.cached
      + costMicroUSD completionTokens price.completion
    some
      { requests := 1
        failedRequests := if record.failed then 1 else 0
        inputTokens := max64 0 d.inputTokens
        outputTokens := max64 0 d.outputTokens
        reasoningTokens := max64 0 d.reasoningTokens
        cachedTokens := max64 0 d.cachedTokens
        totalTokens := max64 0 total
        costMicroUSD := max64 0 cost }

/-- The `model_prices` table (and the built-in default table): canonical
model key to rates. -/
abbrev PriceMap := List (List Char × PriceMicroUSDPer1M)

/-- Row lookup by model key. -/
def lookupPrice (m : PriceMap) (k : List Char) : Option PriceMicroUSDPer1M :=
  (m.find? (fun e => e.1 = k)).map (fun e => e.2)

/-- `billing.DefaultPrices` from `default_prices.go`. -/
def DefaultPrices : PriceMap :=
  [("claude-opus-4-5-20251101".data,
    { prompt := 5000000, completion := 25000000, cached := 500000 })]

/-- `SQLiteStore.ResolvePriceMicro`: saved override on the exact canonical
key, saved override on the thinking-stripped base key (when distinct and
non-empty), built-in default on the exact key, built-in default on the base
key, else a zero price tagged `missing`.  The `updated_at` column carries
no claimed semantics and is omitted; the saved lookups never fail for the
in-memory table model. -/
def ResolvePriceMicro (saved defaults : PriceMap) (model : String) :
    Except String (PriceMicroUSDPer1M × List Char) :=
  if normaliseModelKeyL model.data = [] then .error "billing sqlite: model is required"
  else
    match lookupPrice saved (normaliseModelKeyL model.data) with
    | some p => .ok (p, "saved".data)
    | none =>
      match
        (if stripThinkingVariantL (normaliseModelKeyL model.data) ≠ []
            ∧ stripThinkingVariantL (normaliseModelKeyL model.data)
              ≠ normaliseModelKeyL model.data then
          lookupPrice saved (stripThinkingVariantL (normaliseModelKeyL model.data))
        else none) with
      | some p => .ok (p, "saved".data)
      | none =>
        match lookupPrice defaults (normaliseModelKeyL model.data) with
        | some p => .ok (p, "default".data)
        | none =>
          match
            (if stripThinkingVariantL (normaliseModelKeyL model.data) ≠ []
                ∧ stripThinkingVariantL (normaliseModelKeyL model.data)
                  ≠ normaliseModelKeyL model.data then
              lookupPrice defaults (stripThinkingVariantL (normaliseModelKeyL model.data))
            else none) with
          | some p => .ok (p, "default".data)
          | none => .ok ({ prompt := 0, completion := 0, cached := 0 }, "missing".data)

/-- The resolution order exactly as the specification words it: first hit
among saved-exact, saved-base, default-exact, default-base; otherwise a
zero price with source `missing`. -/
def resolvePriceSpec (saved defaults : PriceMap) (modelKey baseKey : List Char) :
    PriceMicroUSDPer1M × List Char :=
  match lookupPrice saved modelKey with
  | some p => (p, "saved".data)
  | none =>
    match lookupPrice saved baseKey with
    | some p => (p, "saved".data)
    | none =>
      match lookupPrice defaults modelKey with
      | some p => (p, "default".data)
      | none =>
        match lookupPrice defaults baseKey with
        | some p => (p, "default".data)
        | none => ({ prompt := 0, completion := 0, cached := 0 }, "missing".data)

/-- `config.ModelFailoverRule`. -/
structure ModelFailoverRule where
  fromModel : String
  targetModel : String
  deriving Repr, DecidableEq

/-- `config.ProviderFailoverPolicy`. -/
structure ProviderFailoverPolicy where
  enabled : Bool
  targetModel : String
  rules : List ModelFailoverRule
  deriving Repr, DecidableEq

/-- `config.APIKeyFailoverPolicy`. -/
structure APIKeyFailoverPolicy where
  claude : ProviderFailoverPolicy
  deriving Repr, DecidableEq

/-- `config.APIKeyPolicy`.  Go maps become association lists; the float64
`daily-budget-usd` is modelled as a rational (only `≤ 0` comparisons and
the constant 0 are used by the code under verification; NaN payloads are
outside this model). -/
structure APIKeyPolicy where
  apiKey : String
  excludedModels : List String
  failover : APIKeyFailoverPolicy
  allowClaudeOpus46 : Option Bool
  dailyLimits : List (String × Int)
  dailyBudgetUSD : Rat
  deriving Repr, DecidableEq

/-- Modelled from the spec: `config.NormalizeExcludedModels` is not under
the provided sources (only its callers are).  The spec's sanitisation pass
says patterns are lowercased and deduped; blank patterns cannot match
anything and are dropped. -/
def NormalizeExcludedModels (l : List String) : List String :=
  ((l.map (fun s => String.mk (goLower (goTrim s.data)))).filter
    (fun s => s.data ≠ [])).dedup

/-- One overwrite step of the Go `normalized[m] = limit` map assignment. -/
def setLimit (acc : List (String × Int)) (k : String) (v : Int) : List (String × Int) :=
  if (acc.find? (fun e => e.1 = k)).isSome then
    acc.map (fun e => if e.1 = k then (k, v) else e)
  else acc ++ [(k, v)]

/-- One iteration of the daily-limits normalisation loop: lowercase and
trim the model key, drop blanks and non-positive limits. -/
def dailyLimitStep (acc : List (String × Int)) (kv : String × Int) : List (String × Int) :=
  if goLower (goTrim kv.1.data) = [] then acc
  else if kv.2 ≤ 0 then acc
  else setLimit acc (String.mk (goLower (goTrim kv.1.data))) kv.2

/-- The daily-limits normalisation loop of `SanitizeAPIKeyPolicies`;
later map entries overwrite earlier ones that normalise to the same key. -/
def normalizeDailyLimits (l : List (String × Int)) : List (String × Int) :=
  l.foldl dailyLimitStep []

/-- The per-entry normalisation performed by the loop body of
`Config.SanitizeAPIKeyPolicies` (part_005 variant, which also sanitises
the failover block). -/
def normalizePolicyEntry (p : APIKeyPolicy) : APIKeyPolicy :=
  { apiKey := String.mk (goTrim p.apiKey.data)
    excludedModels := NormalizeExcludedModels p.excludedModels
    failover :=
      { claude :=
          { enabled := p.failover.claude.enabled
            targetModel := String.mk (goTrim p.failover.claude.targetModel.data)
            rules :=
              ((p.failover.claude.rules.map (fun r =>
                  { fromModel := String.mk (goTrim r.fromModel.data)
                    targetModel := String.mk (goTrim r.targetModel.data) })).filter
                (fun r => r.fromModel.data ≠ [] ∧ r.targetModel.data ≠ [])) } }
    allowClaudeOpus46 := p.allowClaudeOpus46
    dailyLimits := normalizeDailyLimits p.dailyLimits
    dailyBudgetUSD := if p.dailyBudgetUSD ≤ 0 then 0 else p.dailyBudgetUSD }

/-- One iteration of the `SanitizeAPIKeyPolicies` loop: skip blank keys,
replace the earlier entry with the same key (the `seen` index map), or
append. -/
def sanitizeStep (out : List APIKeyPolicy) (p0 : APIKeyPolicy) : List APIKeyPolicy :=
  if goTrim p0.apiKey.data = [] then out
  else if (out.find? (fun q => q.apiKey = (normalizePolicyEntry p0).apiKey)).isSome then
    out.map (fun q =>
      if q.apiKey = (normalizePolicyEntry p0).apiKey then normalizePolicyEntry p0 else q)
  else out ++ [normalizePolicyEntry p0]

/-- `Config.SanitizeAPIKeyPolicies`. -/
def SanitizeAPIKeyPolicies (l : List APIKeyPolicy) : List APIKeyPolicy :=
  l.foldl sanitizeStep []

/-- Row key of the `api_model_daily_usage` table: (api_key, model, day). -/
abbrev LimiterKey := List Char × List Char × List Char

/-- The `api_model_daily_usage` table: one `count` per key (the
`updated_at` column carries no semantics used by any claim and is
omitted).  The primary-key uniqueness is maintained by `consumeCore`. -/
abbrev LimiterState := List (LimiterKey × Int)

/-- Current count stored for a key. -/
def findRow (st : LimiterState) (k : LimiterKey) : Option Int :=
  (st.find? (fun e => e.1 = k)).map (fun e => e.2)

/-- The `INSERT … ON CONFLICT DO UPDATE SET count = count + 1 WHERE count <
limit RETURNING count` statement of `SQLiteDailyLimiter.Consume`: insert a
fresh row with count 1, or increment only when the existing count is below
the limit; a filtered-out update returns no row, which the caller maps to
`(limit, false)`. -/
def consumeCore (st : LimiterState) (k : LimiterKey) (limit : Int) :
    LimiterState × Int × Bool :=
  match findRow st k with
  | none => (st ++ [(k, 1)], 1, true)
  | some c =>
    if c < limit then
      (st.map (fun e => if e.1 = k then (k, c + 1) else e), c + 1, true)
    else (st, limit, false)

/-- `SQLiteDailyLimiter.Consume`: trim/lowercase the inputs, reject blanks,
short-circuit non-positive limits, then run the atomic upsert. -/
def Consume (st : LimiterState) (apiKey model dayKey : String) (limit : Int) :
    Except String (LimiterState × Int × Bool) :=
  if goTrim apiKey.data = [] ∨ goLower (goTrim model.data) = [] ∨ goTrim dayKey.data = [] then
    .error "sqlite limiter: invalid inputs"
  else if limit ≤ 0 then .ok (st, 0, false)
  else
    .ok (consumeCore st (goTrim apiKey.data, goLower (goTrim model.data), goTrim dayKey.data) limit)

/-- `N` successive `Consume` calls for one key, collecting the returned
(count, allowed) pairs in call order. -/
def consumeTrace (st : LimiterState) (k : LimiterKey) (limit : Int) :
    Nat → LimiterState × List (Int × Bool)
  | 0 => (st, [])
  | n + 1 =>
    let r := consumeTrace st k limit n
    let s := consumeCore r.1 k limit
    (s.1, r.2 ++ [(s.2.1, s.2.2)])

/-- `isClaudeFailoverEligible` from `sdk/api/handlers/handlers.go`.  The
first argument is the HTTP status carried by the error; the second is the
message produced by `extractErrorMessage(errString(err))` (the JSON-envelope
extraction itself operates on the raw body and is outside this model; the
function receives its output).  The source lowercases that message before
all substring checks. -/
def isClaudeFailoverEligible (status : Int) (extractedMsg : List Char) : Bool :=
  if status = 429 ∨ status = 401 ∨ status = 402 ∨ status = 403 then true
  else if status = 500 then
    if goLower extractedMsg = [] then false
    else
      goContainsSub (goLower extractedMsg) "auth_unavailable".data
        || goContainsSub (goLower extractedMsg) "auth_not_found".data
        || goContainsSub (goLower extractedMsg) "no auth available".data
  else if status = 502 then
    if goLower extractedMsg = [] then false
    else
      goContainsSub (goLower extractedMsg) "unknown provider".data
        && goContainsSub (goLower extractedMsg) "model".data
  else if status = 400 then
    if goLower extractedMsg = [] then false
    else if goContainsSub (goLower extractedMsg) "account".data then
      if goContainsSub (goLower extractedMsg) "disabled".data
          || goContainsSub (goLower extractedMsg) "suspended".data
          || goContainsSub (goLower extractedMsg) "banned".data
          || goContainsSub (goLower extractedMsg) "blocked".data then true
      else true
    else
      goContainsSub (goLower extractedMsg) "token".data
        || goContainsSub (goLower extractedMsg) "oauth".data
        || goContainsSub (goLower extractedMsg) "credential".data
        || goContainsSub (goLower extractedMsg) "session".data
        || goContainsSub (goLower extractedMsg) "login".data
  else false

/-- The Claude failover eligibility table exactly as the specification
states it, for comparison with `isClaudeFailoverEligible`. -/
def claudeFailoverEligibleSpec (status : Int) (extractedMsg : List Char) : Bool :=
  if status = 401 ∨ status = 402 ∨ status = 403 ∨ status = 429 then true
  else if status = 500 then
    goContainsSub (goLower extractedMsg) "auth_unavailable".data
      || goContainsSub (goLower extractedMsg) "auth_not_found".data
      || goContainsSub (goLower extractedMsg) "no auth available".data
  else if status = 502 then
    goContainsSub (goLower extractedMsg) "unknown provider".data
      && goContainsSub (goLower extractedMsg) "model".data
  else if status = 400 then
    goContainsSub (goLower extractedMsg) "account".data
      || goContainsSub (goLower extractedMsg) "token".data
      || goContainsSub (goLower extractedMsg) "oauth".data
      || goContainsSub (goLower extractedMsg) "credential".data
      || goContainsSub (goLower extractedMsg) "session".data
      || goContainsSub (goLower extractedMsg) "login".data
  else false

/-- An upstream streaming error as the conductor's goroutine sees it: the
status reported by a `StatusCode() int` interface (0 when absent) and the
extracted message text. -/
structure StreamErr where
  statusCode : Int
  msg : List Char
  deriving Repr, DecidableEq

/-- `statusFromError` from `handlers.go`. -/
def statusFromError (e : StreamErr) : Int :=
  if e.statusCode > 0 then e.statusCode else 0

/-- A chunk arriving on the upstream stream channel: payload bytes or an
error (`coreexecutor.StreamChunk`). -/
inductive UpChunk where
  | payload (data : List Char)
  | errc (e : StreamErr)
  deriving Repr, DecidableEq

/-- The `interfaces.ErrorMessage` the goroutine sends on its error
channel: the mapped status (500 when the error carries none) and the error
value, passed through unchanged. -/
structure SurfacedError where
  statusCode : Int
  err : StreamErr
  deriving Repr, DecidableEq

/-- Building the surfaced `ErrorMessage` from a stream error. -/
def surfaceMsg (e : StreamErr) : SurfacedError :=
  { statusCode := if e.statusCode > 0 then e.statusCode else 500, err := e }

/-- The `bootstrapEligible` closure: unknown status, 401/403/402/408/429,
or any 5xx. -/
def bootstrapEligible (e : StreamErr) : Bool :=
  if statusFromError e = 0 then true
  else if statusFromError e = 401 ∨ statusFromError e = 403 ∨ statusFromError e = 402
      ∨ statusFromError e = 408 ∨ statusFromError e = 429 then true
  else statusFromError e ≥ 500

/-- An `execStream` failure as returned by the `execStream` closure: the
mapped status (defaulted to 500) plus the underlying error message. -/
structure ExecFailure where
  statusCode : Int
  msg : List Char
  deriving Repr, DecidableEq

/-- The `statusHeadersError` wrapper the goroutine builds from a failed
retry (`StatusCode()` returns the carried code, `Error()` the underlying
message). -/
def wrapExecErr (xe : ExecFailure) : StreamErr :=
  { statusCode := xe.statusCode, msg := xe.msg }

/-- Per-request constants of the streaming goroutine, with the successive
outcomes of `execStream` invocations given as an oracle indexed by call
number. -/
structure StreamLoopCfg where
  maxBootstrapRetries : Nat
  failoverEnabled : Bool
  failoverTargetModel : String
  failoverResolvable : Bool
  failoverModel : String
  failoverProvidersClaude : Bool
  execResults : Nat → Except ExecFailure (List UpChunk)

/-- Mutable state of the streaming goroutine. -/
structure StreamLoopState where
  sentPayload : Bool
  bootstrapRetries : Nat
  failoverAttempted : Bool
  providersClaude : Bool
  normalizedModel : String
  calls : Nat

/-- The bootstrap-retry gate of the goroutine (`!sentPayload &&
bootstrapRetries < maxBootstrapRetries && bootstrapEligible(err)`). -/
def bootstrapGate (cfg : StreamLoopCfg) (st : StreamLoopState) (e : StreamErr) : Bool :=
  !st.sentPayload && decide (st.bootstrapRetries < cfg.maxBootstrapRetries)
    && bootstrapEligible e

/-- The failover gate of the goroutine (`!sentPayload && !failoverAttempted
&& failoverEnabled && containsProvider(providers, "claude") &&
failoverTargetModel != "" && failoverTargetModel != normalizedModel`
followed by the eligibility check). -/
def failoverGate (cfg : StreamLoopCfg) (st : StreamLoopState) (e : StreamErr) : Bool :=
  !st.sentPayload && !st.failoverAttempted && cfg.failoverEnabled && st.providersClaude
    && decide (cfg.failoverTargetModel ≠ "")
    && decide (cfg.failoverTargetModel ≠ st.normalizedModel)
    && isClaudeFailoverEligible (statusFromError e) e.msg

/-- The chunk-ferrying goroutine of `ExecuteStreamWithAuthManager` as a
function of the upstream chunk trace: returns the payloads emitted on the
data channel, the error surfaced on the error channel (if any), and how
many `execStream` re-invocations (bootstrap retries or failover) were
made.  Context cancellation aborts emission without retrying and is out of
model.  On an error chunk the goroutine first tries a bootstrap retry,
then a single failover; a successful re-invocation switches to the fresh
chunk channel, which the recursion follows. -/
def runStreamLoop (cfg : StreamLoopCfg) (st : StreamLoopState) :
    List UpChunk → List (List Char) × Option SurfacedError × Nat
  | [] => ([], none, 0)
  | UpChunk.payload d :: rest =>
    if d ≠ [] then
      let r := runStreamLoop cfg { st with sentPayload := true } rest
      (d :: r.1, r.2.1, r.2.2)
    else runStreamLoop cfg st rest
  | UpChunk.errc e :: _ =>
    if hb : bootstrapGate cfg st e = true then
      match cfg.execResults st.calls with
      | .ok newChunks =>
        let r := runStreamLoop cfg
          { st with bootstrapRetries := st.bootstrapRetries + 1, calls := st.calls + 1 }
          newChunks
        (r.1, r.2.1, r.2.2 + 1)
      | .error xe =>
        if hf : failoverGate cfg
            { st with bootstrapRetries := st.bootstrapRetries + 1, calls := st.calls + 1 }
            (wrapExecErr xe) = true then
          if cfg.failoverResolvable then
            match cfg.execResults (st.calls + 1) with
            | .ok newChunks =>
              let r := runStreamLoop cfg
                { sentPayload := st.sentPayload, bootstrapRetries := 0
                  failoverAttempted := true
                  providersClaude := cfg.failoverProvidersClaude
                  normalizedModel := cfg.failoverModel, calls := st.calls + 2 }
                newChunks
              (r.1, r.2.1, r.2.2 + 2)
            | .error xe2 => ([], some (surfaceMsg (wrapExecErr xe2)), 2)
          else ([], some (surfaceMsg (wrapExecErr xe)), 1)
        else ([], some (surfaceMsg (wrapExecErr xe)), 1)
    else
      if hf : failoverGate cfg st e = true then
        if cfg.failoverResolvable then
          match cfg.execResults st.calls with
          | .ok newChunks =>
            let r := runStreamLoop cfg
              { sentPayload := st.sentPayload, bootstrapRetries := 0
                failoverAttempted := true
                providersClaude := cfg.failoverProvidersClaude
                normalizedModel := cfg.failoverModel, calls := st.calls + 1 }
              newChunks
            (r.1, r.2.1, r.2.2 + 1)
          | .error xe2 => ([], some (surfaceMsg (wrapExecErr xe2)), 1)
        else ([], some (surfaceMsg e), 0)
      else ([], some (surfaceMsg e), 0)
  termination_by chunks =>
    ((if st.failoverAttempted then 0 else 1), cfg.maxBootstrapRetries - st.bootstrapRetries,
      chunks.length)
  decreasing_by
    all_goals simp_wf
    · apply Prod.Lex.right
      apply Prod.Lex.right
      omega
    · apply Prod.Lex.right
      apply Prod.Lex.right
      omega
    · apply Prod.Lex.right
      apply Prod.Lex.left
      simp only [bootstrapGate, Bool.and_eq_true, decide_eq_true_eq] at hb
      obtain ⟨⟨-, hlt⟩, -⟩ := hb
      omega
    · simp only [failoverGate, Bool.and_eq_true, Bool.not_eq_true'] at hf
      obtain ⟨⟨⟨⟨⟨⟨-, hfa⟩, -⟩, -⟩, -⟩, -⟩, -⟩ := hf
      rw [hfa]
      exact Prod.Lex.left _ _ (by decide)
    · simp only [failoverGate, Bool.and_eq_true, Bool.not_eq_true'] at hf
      obtain ⟨⟨⟨⟨⟨⟨-, hfa⟩, -⟩, -⟩, -⟩, -⟩, -⟩ := hf
      rw [hfa]
      exact Prod.Lex.left _ _ (by decide)
/-- A JSON value, for the response-masquerade model.  Object member order
is preserved, as the byte-level rewriter (`sjson.SetBytes`) edits in
place. -/
inductive Json where
  | null
  | bool (b : Bool)
  | num (n : Int)
  | str (s : String)
  | arr (elems : List Json)
  | obj (fields : List (String × Json))

/-- Set the value of a member when (and only when) it is present. -/
def setExistingField (fields : List (String × Json)) (name : String) (v : Json) :
    List (String × Json) :=
  fields.map (fun kv => if kv.1 = name then (kv.1, v) else kv)

/-- Rewrite the `model` member of a nested `message` object when
present. -/
def rewriteMessageField (j : Json) (m : String) : Json :=
  match j with
  | .obj fields => .obj (setExistingField fields "model" (.str m))
  | other => other

/-- Modelled from the spec: `rewriteResponseModelFields` is not under the
provided sources (only its tests and callers are).  Per the spec, the
payload is scanned and its `model` field rewritten to the client-requested
model at both top level and nested `message.model`; an empty target, a
non-object payload, or an absent field leaves the payload unchanged. -/
def rewriteResponseModelFields (j : Json) (m : String) : Json :=
  if m = "" then j
  else
    match j with
    | .obj fields =>
      .obj ((setExistingField fields "model" (.str m)).map
        (fun kv => if kv.1 = "message" then (kv.1, rewriteMessageField kv.2 m) else kv))
    | other => other

/-- One `data:` line of an SSE chunk: a payload that parses as JSON, or a
non-JSON payload such as `[DONE]` (the byte-level parse is outside this
model). -/
inductive SSEData where
  | json (j : Json)
  | nonJson (raw : String)

/-- A chunk emitted to the client on the streaming path: raw JSON, a series
of SSE `data:` lines, or other bytes. -/
inductive StreamChunkBody where
  | rawJson (j : Json)
  | sse (lines : List SSEData)
  | rawOther (raw : String)

/-- Modelled from the spec: `rewriteStreamChunkModelFields` is not under
the provided sources (only its tests and callers are).  Each chunk —
whether raw JSON or `data: <json>` SSE lines — is scanned and its model
fields rewritten; `data: [DONE]` and non-JSON payloads pass through. -/
def rewriteStreamChunkModelFields (c : StreamChunkBody) (m : String) : StreamChunkBody :=
  if m = "" then c
  else
    match c with
    | .rawJson j => .rawJson (rewriteResponseModelFields j m)
    | .sse lines =>
      .sse (lines.map (fun l =>
        match l with
        | SSEData.json j => SSEData.json (rewriteResponseModelFields j m)
        | SSEData.nonJson s => SSEData.nonJson s))
    | .rawOther s => .rawOther s

/-- Modelled from the spec: the conductor applies the masquerade to a
non-streaming response body exactly when failover has occurred for the
request. -/
def maskNonStreamingResponse (failoverOccurred : Bool) (clientModel : String)
    (body : Json) : Json :=
  if failoverOccurred then rewriteResponseModelFields body clientModel else body

/-- Modelled from the spec: the conductor applies the masquerade to each
streaming chunk exactly when failover has occurred for the request. -/
def maskStreamChunk (failoverOccurred : Bool) (clientModel : String)
    (c : StreamChunkBody) : StreamChunkBody :=
  if failoverOccurred then rewriteStreamChunkModelFields c clientModel else c

/-- Member lookup on a JSON value (none on non-objects). -/
def Json.lookupField (j : Json) (name : String) : Option Json :=
  match j with
  | .obj fields => (fields.find? (fun kv => kv.1 = name)).map (fun kv => kv.2)
  | _ => none

/-- The top-level `model` field of a payload. -/
def topModel (j : Json) : Option Json :=
  j.lookupField "model"

/-- The nested `message.model` field of a payload. -/
def messageModel (j : Json) : Option Json :=
  (j.lookupField "message").bind (fun x => x.lookupField "model")

theorem char_ne_of_toNat {c d : Char} (h : c.toNat ≠ d.toNat) : c ≠ d :=
  fun e => h (congrArg Char.toNat e)

theorem toNat_toLowerChar_of_upper {c : Char} (h : 65 ≤ c.toNat ∧ c.toNat ≤ 90) :
    (toLowerChar c).toNat = c.toNat + 32 := by
  unfold toLowerChar
  rw [if_pos h]
  have hv : Nat.isValidChar (c.toNat + 32) := Or.inl (by omega)
  unfold Char.ofNat
  split
  · rfl
  · contradiction

theorem toLowerChar_of_not_upper {c : Char} (h : ¬ (65 ≤ c.toNat ∧ c.toNat ≤ 90)) :
    toLowerChar c = c := by
  unfold toLowerChar
  rw [if_neg h]

theorem isGoSpace_false_of_toNat {c : Char} (h : 33 ≤ c.toNat) : isGoSpace c = false := by
  unfold isGoSpace
  have h32 : c ≠ ' ' :=
    char_ne_of_toNat (by rw [show (' ' : Char).toNat = 32 from rfl]; omega)
  have h9 : c ≠ '\t' :=
    char_ne_of_toNat (by rw [show ('\t' : Char).toNat = 9 from rfl]; omega)
  have h10 : c ≠ '\n' :=
    char_ne_of_toNat (by rw [show ('\n' : Char).toNat = 10 from rfl]; omega)
  have h13 : c ≠ '\r' :=
    char_ne_of_toNat (by rw [show ('\r' : Char).toNat = 13 from rfl]; omega)
  have h11 : c ≠ Char.ofNat 11 :=
    char_ne_of_toNat (by rw [show (Char.ofNat 11).toNat = 11 from rfl]; omega)
  have h12 : c ≠ Char.ofNat 12 :=
    char_ne_of_toNat (by rw [show (Char.ofNat 12).toNat = 12 from rfl]; omega)
  simp [h32, h9, h10, h13, h11, h12]

theorem isGoSpace_toLowerChar (c : Char) : isGoSpace (toLowerChar c) = isGoSpace c := by
  by_cases h : 65 ≤ c.toNat ∧ c.toNat ≤ 90
  · rw [isGoSpace_false_of_toNat (c := toLowerChar c) (by rw [toNat_toLowerChar_of_upper h]; omega),
      isGoSpace_false_of_toNat (by omega)]
  · rw [toLowerChar_of_not_upper h]

theorem toLowerChar_toLowerChar (c : Char) : toLowerChar (toLowerChar c) = toLowerChar c := by
  by_cases h : 65 ≤ c.toNat ∧ c.toNat ≤ 90
  · exact toLowerChar_of_not_upper (by rw [toNat_toLowerChar_of_upper h]; omega)
  · rw [toLowerChar_of_not_upper h, toLowerChar_of_not_upper h]

theorem toLowerChar_eq_iff_of_small {c d : Char} (hd : d.toNat < 65) :
    toLowerChar c = d ↔ c = d := by
  constructor
  · intro h
    by_cases hc : 65 ≤ c.toNat ∧ c.toNat ≤ 90
    · exfalso
      have : (toLowerChar c).toNat = c.toNat + 32 := toNat_toLowerChar_of_upper hc
      rw [h] at this
      omega
    · rwa [toLowerChar_of_not_upper hc] at h
  · intro h
    subst h
    exact toLowerChar_of_not_upper (by omega)

theorem dropWhile_dropWhile (p : Char → Bool) (l : List Char) :
    (l.dropWhile p).dropWhile p = l.dropWhile p := by
  induction l with
  | nil => rfl
  | cons a t ih =>
    by_cases h : p a
    · simp [List.dropWhile_cons, h, ih]
    · simp [List.dropWhile_cons, h]


theorem goTrim_eq (l : List Char) : goTrim l = goTrimRight (l.dropWhile isGoSpace) := rfl

theorem goTrimRight_goTrimRight (l : List Char) :
    goTrimRight (goTrimRight l) = goTrimRight l := by
  unfold goTrimRight
  rw [List.reverse_reverse, dropWhile_dropWhile]

theorem dropWhile_eq_self_of_pre {p : Char → Bool} {x y : List Char}
    (hx : x.dropWhile p = x) (hxy : y <+: x) : y.dropWhile p = y := by
  match y, hxy with
  | [], _ => rfl
  | a :: t, hxy =>
    have hax : ∃ s, x = a :: s := by
      rcases hxy with ⟨r, hr⟩
      exact ⟨t ++ r, by rw [← hr]; rfl⟩
    rcases hax with ⟨s, hs⟩
    subst hs
    have hpa : p a = false := by
      by_cases hpa : p a
      · rw [List.dropWhile_cons_of_pos hpa] at hx
        have hlen := congrArg List.length hx
        have hsub := (List.dropWhile_sublist (l := s) p).length_le
        simp only [List.length_cons] at hlen
        omega
      · exact Bool.of_not_eq_true hpa
    rw [List.dropWhile_cons_of_neg (by simp [hpa])]

theorem goTrimRight_prefixFact (l : List Char) : goTrimRight l <+: l := by
  unfold goTrimRight
  have h := List.reverse_prefix.2 (List.dropWhile_suffix (l := l.reverse) isGoSpace)
  rwa [List.reverse_reverse] at h

theorem goTrim_goTrim (l : List Char) : goTrim (goTrim l) = goTrim l := by
  rw [goTrim_eq, goTrim_eq l]
  have h1 : (goTrimRight (l.dropWhile isGoSpace)).dropWhile isGoSpace
      = goTrimRight (l.dropWhile isGoSpace) :=
    dropWhile_eq_self_of_pre (dropWhile_dropWhile _ l) (goTrimRight_prefixFact _)
  rw [h1, goTrimRight_goTrimRight]

theorem isGoSpace_comp_toLowerChar : isGoSpace ∘ toLowerChar = isGoSpace :=
  funext isGoSpace_toLowerChar

theorem dropWhile_goLower (l : List Char) :
    (goLower l).dropWhile isGoSpace = goLower (l.dropWhile isGoSpace) := by
  unfold goLower
  rw [List.dropWhile_map, isGoSpace_comp_toLowerChar]

theorem goTrim_goLower (l : List Char) : goTrim (goLower l) = goLower (goTrim l) := by
  unfold goTrim
  rw [dropWhile_goLower]
  show ((goLower (l.dropWhile isGoSpace)).reverse.dropWhile isGoSpace).reverse = _
  unfold goLower
  rw [← List.map_reverse, List.dropWhile_map, isGoSpace_comp_toLowerChar, ← List.map_reverse]

theorem goLower_goLower (l : List Char) : goLower (goLower l) = goLower l := by
  unfold goLower
  rw [List.map_map]
  rw [show toLowerChar ∘ toLowerChar = toLowerChar from funext toLowerChar_toLowerChar]

theorem goTrim_sublist (l : List Char) : List.Sublist (goTrim l) l := by
  rw [goTrim_eq]
  exact ((goTrimRight_prefixFact _).sublist).trans (List.dropWhile_sublist _)

theorem lparen_mem_goLower {l : List Char} : '(' ∈ goLower l ↔ '(' ∈ l := by
  unfold goLower
  rw [List.mem_map]
  constructor
  · rintro ⟨a, ha, he⟩
    rwa [(toLowerChar_eq_iff_of_small (by decide)).1 he] at ha
  · intro h
    exact ⟨'(', h, (toLowerChar_eq_iff_of_small (by decide)).2 rfl⟩

theorem getLast?_goLower_rparen {l : List Char} :
    (goLower l).getLast? = some ')' ↔ l.getLast? = some ')' := by
  unfold goLower
  rw [List.getLast?_map]
  constructor
  · intro h
    cases hl : l.getLast? with
    | none => rw [hl] at h; simp at h
    | some c =>
      rw [hl, Option.map_some'] at h
      rw [(toLowerChar_eq_iff_of_small (by decide)).1 (Option.some.inj h)]
  · intro h
    rw [h, Option.map_some', (toLowerChar_eq_iff_of_small (d := ')') (by decide)).2 rfl]

theorem takeWhile_ne_lparen_goLower (l : List Char) :
    (goLower l).takeWhile (fun c => c ≠ '(') = goLower (l.takeWhile (fun c => c ≠ '(')) := by
  unfold goLower
  rw [List.takeWhile_map]
  have hp : ((fun c => decide (c ≠ '(')) ∘ toLowerChar) = (fun c : Char => decide (c ≠ '(')) := by
    funext c
    simp only [Function.comp_apply, decide_eq_decide]
    constructor
    · intro hne he
      exact hne ((toLowerChar_eq_iff_of_small (by decide)).2 he)
    · intro hne he
      exact hne ((toLowerChar_eq_iff_of_small (by decide)).1 he)
  rw [hp]

theorem parseThinkingSuffix_of_no_lparen {l : List Char} (h : '(' ∉ l) :
    parseThinkingSuffix l = ⟨l, [], false⟩ := by
  unfold parseThinkingSuffix
  have ht : l.takeWhile (fun c => c ≠ '(') = l :=
    List.takeWhile_eq_self_iff.2 (fun x hx => by
      simp only [ne_eq, decide_eq_true_eq]
      exact fun e => h (e ▸ hx))
  rw [if_neg]
  intro ⟨hlt, _⟩
  rw [ht] at hlt
  omega

theorem no_lparen_modelName (l : List Char) :
    (parseThinkingSuffix l).hasBudget = true → '(' ∉ (parseThinkingSuffix l).modelName := by
  unfold parseThinkingSuffix
  by_cases hc : (l.takeWhile (fun c => c ≠ '(')).length < l.length ∧ l.getLast? = some ')'
  · rw [if_pos hc]
    intro _ hm
    have := List.mem_takeWhile_imp hm
    simp at this
  · rw [if_neg hc]
    intro h
    simp at h

/-- Helper: the canonical key is a fixed point of trimming. -/
theorem goTrim_normaliseModelKeyL (l : List Char) :
    goTrim (normaliseModelKeyL l) = normaliseModelKeyL l := by
  unfold normaliseModelKeyL
  rw [goTrim_goLower, goTrim_goTrim]

/-- Helper: the canonical key carries no further thinking-budget suffix. -/
theorem parse_normaliseModelKeyL (l : List Char) :
    parseThinkingSuffix (normaliseModelKeyL l) = ⟨normaliseModelKeyL l, [], false⟩ := by
  unfold normaliseModelKeyL
  cases hb : (parseThinkingSuffix (goTrim l)).hasBudget with
  | true =>
    have hnol : '(' ∉ (parseThinkingSuffix (goTrim l)).modelName :=
      no_lparen_modelName (goTrim l) hb
    apply parseThinkingSuffix_of_no_lparen
    intro hmem
    exact hnol ((goTrim_sublist _).subset (lparen_mem_goLower.1 hmem))
  | false =>
    -- the trimmed input had no strippable suffix; lowering cannot create one
    have hcond : ¬ (((goTrim l).takeWhile (fun c => c ≠ '(')).length < (goTrim l).length
        ∧ (goTrim l).getLast? = some ')') := by
      intro hc
      unfold parseThinkingSuffix at hb
      rw [if_pos hc] at hb
      simp at hb
    have hmn : (parseThinkingSuffix (goTrim l)).modelName = goTrim l := by
      unfold parseThinkingSuffix
      rw [if_neg hcond]
    rw [hmn, goTrim_goTrim]
    unfold parseThinkingSuffix
    rw [if_neg]
    intro ⟨h1, h2⟩
    apply hcond
    constructor
    · rw [takeWhile_ne_lparen_goLower] at h1
      unfold goLower at h1
      simp only [List.length_map] at h1
      exact h1
    · exact getLast?_goLower_rparen.1 h2

/-- C9 at the list level. -/
theorem normaliseModelKeyL_idem (l : List Char) :
    normaliseModelKeyL (normaliseModelKeyL l) = normaliseModelKeyL l := by
  have h1 : normaliseModelKeyL (normaliseModelKeyL l)
      = goLower (goTrim (parseThinkingSuffix (goTrim (normaliseModelKeyL l))).modelName) := rfl
  rw [h1, goTrim_normaliseModelKeyL, parse_normaliseModelKeyL]
  show goLower (goTrim (normaliseModelKeyL l)) = normaliseModelKeyL l
  rw [goTrim_normaliseModelKeyL]
  show goLower (goLower (goTrim (parseThinkingSuffix (goTrim l)).modelName)) = _
  rw [goLower_goLower]
  rfl

theorem downgradeL_of_opus46 {l : List Char}
    (h : opus46Pre.isPrefixOf
      (goLower (goTrim (parseThinkingSuffix (goTrim l)).modelName)) = true) :
    downgradeClaudeOpus46L l =
      (opus45Pre ++ (parseThinkingSuffix (goTrim l)).modelName.drop opus46Pre.length
        ++ (if (parseThinkingSuffix (goTrim l)).hasBudget then
              '(' :: (parseThinkingSuffix (goTrim l)).rawSuffix ++ [')'] else []),
        true) := by
  have htr : goTrim l ≠ [] := by
    intro he
    rw [he] at h
    exact absurd h (by decide)
  simp only [downgradeClaudeOpus46L]
  rw [if_neg htr, if_pos h]
  cases hb : (parseThinkingSuffix (goTrim l)).hasBudget
  · simp
  · simp [List.append_assoc]

theorem downgradeL_of_not_opus46 {l : List Char}
    (h : opus46Pre.isPrefixOf
      (goLower (goTrim (parseThinkingSuffix (goTrim l)).modelName)) = false) :
    downgradeClaudeOpus46L l = (l, false) := by
  by_cases htr : goTrim l = []
  · simp only [downgradeClaudeOpus46L]
    rw [if_pos htr]
  · simp only [downgradeClaudeOpus46L]
    rw [if_neg htr, if_neg (by simp [h])]

example : NormaliseModelKey "claude-opus-4-6(8192)" = "claude-opus-4-6" := by decide
example : NormaliseModelKey "  Claude-Opus-4-6-Thinking(high) " = "claude-opus-4-6-thinking" := by decide
example : DowngradeClaudeOpus46 "claude-opus-4-6" = ("claude-opus-4-5-20251101", true) := by decide
example : DowngradeClaudeOpus46 "claude-opus-4-6-thinking" = ("claude-opus-4-5-20251101-thinking", true) := by decide
example : DowngradeClaudeOpus46 "claude-opus-4-6(8192)" = ("claude-opus-4-5-20251101(8192)", true) := by decide
example : DowngradeClaudeOpus46 "claude-opus-4-6-thinking(high)" = ("claude-opus-4-5-20251101-thinking(high)", true) := by decide
example : DowngradeClaudeOpus46 "claude-sonnet-4-5" = ("claude-sonnet-4-5", false) := by decide
example : MatchWildcard "claude-*" "claude-opus-4-6" = true := by decide
example : MatchWildcard "*-thinking" "claude-opus-4-5-thinking" = true := by decide
example : MatchWildcard "claude-opus-4-6" "claude-opus-4-6" = true := by decide
example : MatchWildcard "claude-opus-4-6" "claude-opus-4-5" = false := by decide
example : MatchWildcard "*" "" = false := by decide
example : MatchWildcard "a*c*e" "abcde" = true := by decide
example : StripThinkingVariant "claude-opus-4-6-thinking" = "claude-opus-4-6" := by decide

/-- C9: applying the model-key normaliser twice yields the same result as
applying it once — `NormaliseModelKey` is idempotent. -/
theorem claim_C9_normalise_idempotent (model : String) :
    NormaliseModelKey (NormaliseModelKey model) = NormaliseModelKey model := by
  unfold NormaliseModelKey
  exact congrArg String.mk (normaliseModelKeyL_idem model.data)

/-- C8: when the canonical base of a model name (lowercased, trimmed,
thinking-budget suffix stripped) starts with `claude-opus-4-6`,
`DowngradeClaudeOpus46` replaces that prefix with
`claude-opus-4-5-20251101`, keeps the remainder of the base, reattaches the
`(…)` suffix when present, and reports `changed = true`; for every other
name it returns the input unchanged with `changed = false`. -/
theorem claim_C8_downgrade_opus46 (model : String) :
    (opus46Pre.isPrefixOf
        (goLower (goTrim (parseThinkingSuffix (goTrim model.data)).modelName)) = true →
      DowngradeClaudeOpus46 model =
        (⟨opus45Pre ++ (parseThinkingSuffix (goTrim model.data)).modelName.drop opus46Pre.length
            ++ (if (parseThinkingSuffix (goTrim model.data)).hasBudget then
                  '(' :: (parseThinkingSuffix (goTrim model.data)).rawSuffix ++ [')'] else [])⟩,
          true)) ∧
    (opus46Pre.isPrefixOf
        (goLower (goTrim (parseThinkingSuffix (goTrim model.data)).modelName)) = false →
      DowngradeClaudeOpus46 model = (model, false)) := by
  constructor
  · intro h
    unfold DowngradeClaudeOpus46
    rw [downgradeL_of_opus46 h]
  · intro h
    unfold DowngradeClaudeOpus46
    rw [downgradeL_of_not_opus46 h]

/-- Witness for C8 at the source's own test vectors. -/
theorem claim_C8_downgrade_opus46_witness :
    DowngradeClaudeOpus46 "claude-opus-4-6-thinking(high)"
        = ("claude-opus-4-5-20251101-thinking(high)", true) ∧
      DowngradeClaudeOpus46 "claude-sonnet-4-5" = ("claude-sonnet-4-5", false) :=
  ⟨((claim_C8_downgrade_opus46 "claude-opus-4-6-thinking(high)").1 (by decide)).trans (by decide),
    (claim_C8_downgrade_opus46 "claude-sonnet-4-5").2 (by decide)⟩

/-- C10: `MatchWildcard` returns false whenever the trimmed, lowercased
pattern or value is empty (so `*` does not match the empty string), and a
pattern without `*` matches exactly when it equals the value after trimming
and lowercasing both sides. -/
theorem claim_C10_matchWildcard_base (pattern value : String) :
    ((goLower (goTrim pattern.data) = [] ∨ goLower (goTrim value.data) = []) →
      MatchWildcard pattern value = false) ∧
    (goLower (goTrim pattern.data) ≠ [] → goLower (goTrim value.data) ≠ [] →
      (goLower (goTrim pattern.data)).contains '*' = false →
      MatchWildcard pattern value
        = (goLower (goTrim pattern.data) == goLower (goTrim value.data))) := by
  constructor
  · intro h
    unfold MatchWildcard matchWildcardL
    rcases h with h | h
    · simp [h]
    · simp [h]
  · intro h1 h2 hstar
    unfold MatchWildcard matchWildcardL
    rw [if_neg (by simp [h1, h2]), if_pos]
    intro hm
    rw [hm] at hstar
    exact absurd hstar (by simp)

theorem findRow_append_new {st : LimiterState} {k : LimiterKey}
    (h : findRow st k = none) (v : Int) : findRow (st ++ [(k, v)]) k = some v := by
  induction st with
  | nil => simp [findRow]
  | cons e t ih =>
    by_cases he : e.1 = k
    · exfalso
      unfold findRow at h
      rw [List.find?_cons_of_pos _ (by simp [he])] at h
      simp at h
    · unfold findRow at h ⊢
      rw [List.find?_cons_of_neg _ (by simp [he])] at h
      rw [List.cons_append, List.find?_cons_of_neg _ (by simp [he])]
      exact ih h

theorem findRow_map_update {st : LimiterState} {k : LimiterKey} (v : Int)
    (h : (findRow st k).isSome) :
    findRow (st.map (fun e => if e.1 = k then (k, v) else e)) k = some v := by
  induction st with
  | nil => simp [findRow] at h
  | cons e t ih =>
    by_cases he : e.1 = k
    · simp only [List.map_cons, if_pos he]
      unfold findRow
      rw [List.find?_cons_of_pos _ (by simp)]
      rfl
    · simp only [List.map_cons, if_neg he]
      unfold findRow at h ⊢
      rw [List.find?_cons_of_neg _ (by simp [he])] at h
      rw [List.find?_cons_of_neg _ (by simp [he])]
      exact ih h

theorem consumeTrace_spec (k : LimiterKey) (limit : Int) (hl : 0 < limit)
    (st : LimiterState) (h0 : findRow st k = none) (N : Nat) :
    findRow (consumeTrace st k limit N).1 k
        = (if N = 0 then none else some (min (N : Int) limit)) ∧
      (consumeTrace st k limit N).2
        = (List.range N).map
            (fun i : Nat => (min ((i : Int) + 1) limit, decide ((i : Int) + 1 ≤ limit))) := by
  induction N with
  | zero => simpa [consumeTrace]
  | succ n ih =>
    obtain ⟨ih1, ih2⟩ := ih
    by_cases hn : n = 0
    · subst hn
      simp only [consumeTrace, consumeCore, h0]
      constructor
      · rw [findRow_append_new h0]
        simp only [if_neg (by omega : ¬ (1 : Nat) = 0), Option.some.injEq]
        omega
      · simp only [List.range_succ, List.range_zero, List.nil_append, List.map_cons,
          List.map_nil]
        simp only [List.nil_append, List.cons.injEq, and_true, Prod.mk.injEq]
        constructor
        · omega
        · rw [eq_comm, decide_eq_true_iff]
          omega
    · have hn' : findRow (consumeTrace st k limit n).1 k = some (min (n : Int) limit) := by
        rw [ih1, if_neg hn]
      simp only [consumeTrace, consumeCore, hn']
      by_cases hlt : min (n : Int) limit < limit
      · rw [if_pos hlt]
        refine ⟨?_, ?_⟩
        · rw [findRow_map_update _ (by rw [hn']; rfl)]
          rw [if_neg (by omega : ¬ n + 1 = 0), Option.some.injEq]
          omega
        · rw [ih2, List.range_succ, List.map_append, List.map_cons, List.map_nil]
          congr 1
          simp only [List.cons.injEq, and_true, Prod.mk.injEq]
          constructor
          · omega
          · rw [eq_comm, decide_eq_true_iff]
            omega
      · rw [if_neg hlt]
        refine ⟨?_, ?_⟩
        · rw [hn', if_neg (by omega : ¬ n + 1 = 0), Option.some.injEq]
          omega
        · rw [ih2, List.range_succ, List.map_append, List.map_cons, List.map_nil]
          congr 1
          simp only [List.cons.injEq, and_true, Prod.mk.injEq]
          constructor
          · omega
          · rw [eq_comm, decide_eq_false_iff_not]
            omega

theorem costMicroUSD_eq_roundHalfUp {t r : Int} (ht : 0 ≤ t) (hr : 0 ≤ r) :
    costMicroUSD t r = roundHalfUpMicro (t * r) := by
  unfold costMicroUSD roundHalfUpMicro
  by_cases h : t ≤ 0 ∨ r ≤ 0
  · rw [if_pos h]
    have hz : t * r = 0 := by
      rcases h with h | h
      · rw [show t = 0 by omega, zero_mul]
      · rw [show r = 0 by omega, mul_zero]
    rw [hz]
    decide
  · rw [if_neg h]
    push_neg at h
    have hnum : 0 ≤ t * r + 500000 := by
      have := mul_nonneg ht hr
      omega
    rw [Int.tdiv_eq_ediv hnum (by omega), Int.fdiv_eq_ediv _ (by omega)]

theorem roundHalfUpMicro_nonneg {x : Int} (h : 0 ≤ x) : 0 ≤ roundHalfUpMicro x :=
  Int.fdiv_nonneg (by omega) (by omega)

theorem max64_zero_of_nonneg {x : Int} (h : 0 ≤ x) : max64 0 x = x := by
  unfold max64
  rw [if_neg (by omega)]

theorem goLowerTrim_idem (x : List Char) :
    goLower (goTrim (goLower (goTrim x))) = goLower (goTrim x) := by
  rw [goTrim_goLower, goTrim_goTrim, goLower_goLower]

theorem stringData_inj {s t : String} (h : s.data = t.data) : s = t := by
  cases s
  cases t
  exact congrArg String.mk h

theorem mem_setLimit {acc : List (String × Int)} {k : String} {v : Int} {kv : String × Int}
    (h : kv ∈ setLimit acc k v) : kv ∈ acc ∨ kv = (k, v) := by
  unfold setLimit at h
  split at h
  · rcases List.mem_map.1 h with ⟨q, hq, he⟩
    by_cases hqk : q.1 = k
    · right
      rw [← he, if_pos hqk]
    · left
      rwa [← he, if_neg hqk]
  · rcases List.mem_append.1 h with h | h
    · exact Or.inl h
    · right
      simpa using h

theorem dailyLimits_foldl_good (l : List (String × Int)) :
    ∀ acc, (∀ kv ∈ acc, 0 < kv.2 ∧ kv.1.data = goLower (goTrim kv.1.data)) →
      ∀ kv ∈ l.foldl dailyLimitStep acc, 0 < kv.2 ∧ kv.1.data = goLower (goTrim kv.1.data) := by
  induction l with
  | nil =>
    intro acc hacc kv hkv
    exact hacc kv hkv
  | cons e t ih =>
    intro acc hacc kv hkv
    rw [List.foldl_cons] at hkv
    refine ih _ ?_ kv hkv
    intro kv' hkv'
    unfold dailyLimitStep at hkv'
    by_cases h1 : goLower (goTrim e.1.data) = []
    · rw [if_pos h1] at hkv'
      exact hacc kv' hkv'
    · rw [if_neg h1] at hkv'
      by_cases h2 : e.2 ≤ 0
      · rw [if_pos h2] at hkv'
        exact hacc kv' hkv'
      · rw [if_neg h2] at hkv'
        rcases mem_setLimit hkv' with h | h
        · exact hacc kv' h
        · rw [h]
          exact ⟨by omega, (goLowerTrim_idem e.1.data).symm⟩

theorem normalizeDailyLimits_good (l : List (String × Int)) :
    ∀ kv ∈ normalizeDailyLimits l, 0 < kv.2 ∧ kv.1.data = goLower (goTrim kv.1.data) :=
  dailyLimits_foldl_good l [] (by simp)

theorem normalizePolicyEntry_apiKey (e : APIKeyPolicy) :
    (normalizePolicyEntry e).apiKey.data = goTrim e.apiKey.data := rfl

theorem normalizePolicyEntry_budget_nonneg (e : APIKeyPolicy) :
    0 ≤ (normalizePolicyEntry e).dailyBudgetUSD := by
  show (0 : Rat) ≤ if e.dailyBudgetUSD ≤ 0 then 0 else e.dailyBudgetUSD
  split
  · exact le_refl 0
  · next h => exact le_of_lt (lt_of_not_le h)

theorem mapKey_replace (out : List APIKeyPolicy) (entry : APIKeyPolicy) :
    (out.map (fun q => if q.apiKey = entry.apiKey then entry else q)).map
        (fun p => p.apiKey)
      = out.map (fun p => p.apiKey) := by
  rw [List.map_map]
  have hfun : ((fun p : APIKeyPolicy => p.apiKey)
        ∘ (fun q => if q.apiKey = entry.apiKey then entry else q))
      = (fun p : APIKeyPolicy => p.apiKey) := by
    funext q
    by_cases h : q.apiKey = entry.apiKey
    · simp [h]
    · simp [h]
  rw [hfun]

theorem sanitize_foldl_inv (l : List APIKeyPolicy) :
    ∀ (processed out : List APIKeyPolicy),
      (out.map (fun p => p.apiKey)).Nodup →
      (∀ p ∈ out, ∃ e, goTrim e.apiKey.data ≠ [] ∧ p = normalizePolicyEntry e) →
      (∀ p ∈ out,
        ((processed.filter (fun e => goTrim e.apiKey.data = p.apiKey.data)).getLast?).map
          normalizePolicyEntry = some p) →
      ((l.foldl sanitizeStep out).map (fun p => p.apiKey)).Nodup ∧
        (∀ p ∈ l.foldl sanitizeStep out,
          ∃ e, goTrim e.apiKey.data ≠ [] ∧ p = normalizePolicyEntry e) ∧
        (∀ p ∈ l.foldl sanitizeStep out,
          (((processed ++ l).filter
              (fun e => goTrim e.apiKey.data = p.apiKey.data)).getLast?).map
            normalizePolicyEntry = some p) := by
  induction l with
  | nil =>
    intro processed out h1 h2 h3
    simp only [List.foldl_nil, List.append_nil]
    exact ⟨h1, h2, h3⟩
  | cons e t ih =>
    intro processed out h1 h2 h3
    rw [List.foldl_cons, show processed ++ e :: t = (processed ++ [e]) ++ t by simp]
    by_cases hblank : goTrim e.apiKey.data = []
    · have hstep : sanitizeStep out e = out := by
        unfold sanitizeStep
        rw [if_pos hblank]
      rw [hstep]
      refine ih (processed ++ [e]) out h1 h2 ?_
      intro p hp
      rw [List.filter_append]
      have hpred : (goTrim e.apiKey.data = p.apiKey.data) = False := by
        rcases h2 p hp with ⟨q, hq, hpq⟩
        simp only [eq_iff_iff, iff_false]
        intro hcon
        rw [hblank] at hcon
        rw [hpq, normalizePolicyEntry_apiKey] at hcon
        exact hq hcon.symm
      have hfe : List.filter (fun e => decide (goTrim e.apiKey.data = p.apiKey.data)) [e]
          = [] := by
        simp [List.filter, hpred]
      rw [hfe, List.append_nil]
      exact h3 p hp
    · by_cases hfound :
          (out.find? (fun q => q.apiKey = (normalizePolicyEntry e).apiKey)).isSome
      · have hstep : sanitizeStep out e
            = out.map (fun q =>
                if q.apiKey = (normalizePolicyEntry e).apiKey then normalizePolicyEntry e
                else q) := by
          unfold sanitizeStep
          rw [if_neg hblank, if_pos hfound]
        rw [hstep]
        refine ih (processed ++ [e]) _ ?_ ?_ ?_
        · rw [mapKey_replace]
          exact h1
        · intro p hp
          rcases List.mem_map.1 hp with ⟨q, hq, hpq⟩
          by_cases hqk : q.apiKey = (normalizePolicyEntry e).apiKey
          · rw [← hpq, if_pos hqk]
            exact ⟨e, hblank, rfl⟩
          · rw [← hpq, if_neg hqk]
            exact h2 q hq
        · intro p hp
          rcases List.mem_map.1 hp with ⟨q, hq, hpq⟩
          rw [List.filter_append]
          by_cases hqk : q.apiKey = (normalizePolicyEntry e).apiKey
          · have hpe : p = normalizePolicyEntry e := by rw [← hpq, if_pos hqk]
            have hpred : (goTrim e.apiKey.data = p.apiKey.data) = True := by
              simp only [eq_iff_iff, iff_true]
              rw [hpe, normalizePolicyEntry_apiKey]
            have hfe : List.filter
                (fun e => decide (goTrim e.apiKey.data = p.apiKey.data)) [e] = [e] := by
              simp [List.filter, hpred]
            rw [hfe, List.getLast?_concat, Option.map_some', hpe]
          · have hpq' : p = q := by rw [← hpq, if_neg hqk]
            have hpred : (goTrim e.apiKey.data = p.apiKey.data) = False := by
              simp only [eq_iff_iff, iff_false]
              intro hcon
              apply hqk
              apply stringData_inj
              rw [hpq'] at hcon
              rw [normalizePolicyEntry_apiKey, hcon]
            have hfe : List.filter
                (fun e => decide (goTrim e.apiKey.data = p.apiKey.data)) [e] = [] := by
              simp [List.filter, hpred]
            rw [hfe, List.append_nil, hpq']
            exact h3 q hq
      · have hstep : sanitizeStep out e = out ++ [normalizePolicyEntry e] := by
          unfold sanitizeStep
          rw [if_neg hblank, if_neg hfound]
        rw [hstep]
        have hnone : out.find? (fun q => q.apiKey = (normalizePolicyEntry e).apiKey)
            = none := Option.not_isSome_iff_eq_none.1 hfound
        have hnotin : ∀ q ∈ out, q.apiKey ≠ (normalizePolicyEntry e).apiKey := by
          intro q hq
          have hne := List.find?_eq_none.1 hnone q hq
          simpa using hne
        refine ih (processed ++ [e]) _ ?_ ?_ ?_
        · rw [List.map_append, List.nodup_append]
          refine ⟨h1, by simp, ?_⟩
          intro a ha hb
          simp only [List.map_cons, List.map_nil, List.mem_singleton] at hb
          rcases List.mem_map.1 ha with ⟨q, hq, hqa⟩
          exact hnotin q hq (hqa.trans hb)
        · intro p hp
          rcases List.mem_append.1 hp with hp | hp
          · exact h2 p hp
          · simp only [List.mem_singleton] at hp
            exact ⟨e, hblank, hp⟩
        · intro p hp
          rw [List.filter_append]
          rcases List.mem_append.1 hp with hp | hp
          · have hpred : (goTrim e.apiKey.data = p.apiKey.data) = False := by
              simp only [eq_iff_iff, iff_false]
              intro hcon
              apply hnotin p hp
              apply stringData_inj
              rw [normalizePolicyEntry_apiKey, hcon]
            have hfe : List.filter
                (fun e => decide (goTrim e.apiKey.data = p.apiKey.data)) [e] = [] := by
              simp [List.filter, hpred]
            rw [hfe, List.append_nil]
            exact h3 p hp
          · simp only [List.mem_singleton] at hp
            have hpred : (goTrim e.apiKey.data = p.apiKey.data) = True := by
              simp only [eq_iff_iff, iff_true]
              rw [hp, normalizePolicyEntry_apiKey]
            have hfe : List.filter
                (fun e => decide (goTrim e.apiKey.data = p.apiKey.data)) [e] = [e] := by
              simp [List.filter, hpred]
            rw [hfe, List.getLast?_concat, Option.map_some', hp]

/-- C3: the Claude failover eligibility predicate agrees with the spec's
table everywhere: 401/402/403/429 always eligible; 500 eligible exactly on
the `auth_unavailable` / `auth_not_found` / `no auth available` markers;
502 exactly when the message mentions both `unknown provider` and `model`;
400 on account- or token/oauth/credential/session/login markers; all other
statuses ineligible. -/
theorem claim_C3_failover_eligibility (status : Int) (extractedMsg : List Char) :
    isClaudeFailoverEligible status extractedMsg
      = claudeFailoverEligibleSpec status extractedMsg := by
  unfold isClaudeFailoverEligible claudeFailoverEligibleSpec
  by_cases hA : status = 429 ∨ status = 401 ∨ status = 402 ∨ status = 403
  · have hA' : status = 401 ∨ status = 402 ∨ status = 403 ∨ status = 429 := by tauto
    rw [if_pos hA, if_pos hA']
  · have hA' : ¬ (status = 401 ∨ status = 402 ∨ status = 403 ∨ status = 429) := by tauto
    rw [if_neg hA, if_neg hA']
    by_cases h5 : status = 500
    · rw [if_pos h5, if_pos h5]
      by_cases hm : goLower extractedMsg = []
      · rw [if_pos hm, hm]
        decide
      · rw [if_neg hm]
    · rw [if_neg h5, if_neg h5]
      by_cases h2 : status = 502
      · rw [if_pos h2, if_pos h2]
        by_cases hm : goLower extractedMsg = []
        · rw [if_pos hm, hm]
          decide
        · rw [if_neg hm]
      · rw [if_neg h2, if_neg h2]
        by_cases h4 : status = 400
        · rw [if_pos h4, if_pos h4]
          by_cases hm : goLower extractedMsg = []
          · rw [if_pos hm, hm]
            decide
          · rw [if_neg hm]
            by_cases hacc : goContainsSub (goLower extractedMsg) "account".data = true
            · simp [hacc]
            · simp only [Bool.not_eq_true] at hacc
              simp [hacc]
        · rw [if_neg h4, if_neg h4]

/-- C2: `Consume` semantics for every (client key, model, day) triple and
limit — blank inputs error out without touching state; a non-positive limit
returns (0, false) without touching state; with a positive limit the call
runs the atomic upsert; starting from no row, after `N` calls the stored
count is `min N limit` and call `i` returns `(min i limit, i ≤ limit)`, so
`allowed = false` exactly on calls beyond the limit; a refused call returns
`(limit, false)` and leaves the table unchanged. -/
theorem claim_C2_consume (st : LimiterState) (apiKey model dayKey : String) (limit : Int) :
    ((goTrim apiKey.data = [] ∨ goLower (goTrim model.data) = [] ∨ goTrim dayKey.data = []) →
      Consume st apiKey model dayKey limit = .error "sqlite limiter: invalid inputs") ∧
    (¬ (goTrim apiKey.data = [] ∨ goLower (goTrim model.data) = [] ∨ goTrim dayKey.data = []) →
      limit ≤ 0 → Consume st apiKey model dayKey limit = .ok (st, 0, false)) ∧
    (¬ (goTrim apiKey.data = [] ∨ goLower (goTrim model.data) = [] ∨ goTrim dayKey.data = []) →
      0 < limit → Consume st apiKey model dayKey limit
        = .ok (consumeCore st
            (goTrim apiKey.data, goLower (goTrim model.data), goTrim dayKey.data) limit)) ∧
    (∀ k : LimiterKey, 0 < limit → findRow st k = none → ∀ N : Nat,
      findRow (consumeTrace st k limit N).1 k
          = (if N = 0 then none else some (min (N : Int) limit)) ∧
        (consumeTrace st k limit N).2
          = (List.range N).map
              (fun i : Nat => (min ((i : Int) + 1) limit, decide ((i : Int) + 1 ≤ limit)))) ∧
    (∀ (k : LimiterKey) (c : Int), findRow st k = some c → limit ≤ c →
      consumeCore st k limit = (st, limit, false)) := by
  refine ⟨?_, ?_, ?_, ?_, ?_⟩
  · intro h
    unfold Consume
    rw [if_pos h]
  · intro h hle
    unfold Consume
    rw [if_neg h, if_pos hle]
  · intro h hpos
    unfold Consume
    rw [if_neg h, if_neg (by omega)]
  · intro k hpos h0 N
    exact consumeTrace_spec k limit hpos st h0 N
  · intro k c hrow hge
    simp only [consumeCore, hrow]
    rw [if_neg (by omega)]

/-- Witness for C2: a concrete three-call run with limit 2 from an empty
table, plus the blank-input and zero-limit boundary cases. -/
theorem claim_C2_consume_witness :
    Consume [] " " "claude-opus-4-6" "2026-10-11" 2 = .error "sqlite limiter: invalid inputs" ∧
      Consume [] "user1" "claude-opus-4-6" "2026-10-11" 0 = .ok ([], 0, false) ∧
      (consumeTrace [] ("user1".data, "claude-opus-4-6".data, "2026-10-11".data) 2 3).2
        = [(1, true), (2, true), (2, false)] := by
  refine ⟨?_, ?_, ?_⟩
  · exact (claim_C2_consume [] " " "claude-opus-4-6" "2026-10-11" 2).1 (by decide)
  · exact (claim_C2_consume [] "user1" "claude-opus-4-6" "2026-10-11" 0).2.1
      (by decide) (by decide)
  · exact (((claim_C2_consume [] "user1" "claude-opus-4-6" "2026-10-11" 2).2.2.2.1
          ("user1".data, "claude-opus-4-6".data, "2026-10-11".data)
          (by decide) (by decide) 3).2).trans (by decide)

/-- C6: for a usage record with a non-blank client key, non-negative token
counts and non-negative rates (the invariants the store guarantees), the
persisted delta prices prompt tokens `max(0, input − cached)` at the prompt
rate, cached tokens at the cached rate and `output + reasoning` completion
tokens at the completion rate, each as round-half-up of
`(tokens × rate)/1e6` in exact integer arithmetic, summed; total tokens
default to `input+output+reasoning+cached` when the supplier reports 0. -/
theorem claim_C6_cost_formula (record : UsageRecord) (price : PriceMicroUSDPer1M)
    (hkey : goTrim record.apiKey.data ≠ [])
    (hin : 0 ≤ record.detail.inputTokens) (hout : 0 ≤ record.detail.outputTokens)
    (hre : 0 ≤ record.detail.reasoningTokens) (hca : 0 ≤ record.detail.cachedTokens)
    (htot : 0 ≤ record.detail.totalTokens)
    (hp : 0 ≤ price.prompt) (hc : 0 ≤ price.completion) (hcch : 0 ≤ price.cached) :
    handleUsageDelta record price = some
      { requests := 1
        failedRequests := if record.failed then 1 else 0
        inputTokens := record.detail.inputTokens
        outputTokens := record.detail.outputTokens
        reasoningTokens := record.detail.reasoningTokens
        cachedTokens := record.detail.cachedTokens
        totalTokens :=
          if record.detail.totalTokens = 0 then
            record.detail.inputTokens + record.detail.outputTokens
              + record.detail.reasoningTokens + record.detail.cachedTokens
          else record.detail.totalTokens
        costMicroUSD :=
          roundHalfUpMicro
              (max64 0 (record.detail.inputTokens - record.detail.cachedTokens) * price.prompt)
            + roundHalfUpMicro (record.detail.cachedTokens * price.cached)
            + roundHalfUpMicro
              ((record.detail.outputTokens + record.detail.reasoningTokens)
                * price.completion) } := by
  unfold handleUsageDelta
  rw [if_neg hkey]
  have hprompt : (if record.detail.inputTokens - record.detail.cachedTokens < 0 then 0
      else record.detail.inputTokens - record.detail.cachedTokens)
        = max64 0 (record.detail.inputTokens - record.detail.cachedTokens) := by
    unfold max64
    by_cases hd : record.detail.inputTokens - record.detail.cachedTokens < 0
    · simp only [if_pos hd]
    · simp only [if_neg hd]
  have hpromptNonneg : 0 ≤ max64 0 (record.detail.inputTokens - record.detail.cachedTokens) := by
    unfold max64
    split <;> omega
  have htot0 : 0 ≤ (if record.detail.totalTokens = 0 then
      record.detail.inputTokens + record.detail.outputTokens
        + record.detail.reasoningTokens + record.detail.cachedTokens
      else record.detail.totalTokens) := by
    split <;> omega
  have hcost1 := costMicroUSD_eq_roundHalfUp hpromptNonneg hp
  have hcost2 := costMicroUSD_eq_roundHalfUp hca hcch
  have hcost3 := costMicroUSD_eq_roundHalfUp (t := record.detail.outputTokens
    + record.detail.reasoningTokens) (by omega) hc
  simp only [Option.some.injEq, DailyUsageDelta.mk.injEq]
  refine ⟨trivial, trivial, max64_zero_of_nonneg hin, max64_zero_of_nonneg hout,
    max64_zero_of_nonneg hre, max64_zero_of_nonneg hca, ?_, ?_⟩
  · rw [if_neg (by omega), max64_zero_of_nonneg htot0]
  · rw [hprompt, hcost1, hcost2, hcost3]
    refine max64_zero_of_nonneg ?_
    have n1 := roundHalfUpMicro_nonneg (mul_nonneg hpromptNonneg hp)
    have n2 := roundHalfUpMicro_nonneg (mul_nonneg hca hcch)
    have n3 := roundHalfUpMicro_nonneg (mul_nonneg (a := record.detail.outputTokens
      + record.detail.reasoningTokens) (by omega) hc)
    omega

/-- Witness for C6: a concrete record priced at the built-in
claude-opus-4-5 rates (1234 input, 1000 cached, 2000 output, 500
reasoning, supplier total omitted). -/
theorem claim_C6_cost_formula_witness :
    handleUsageDelta
        { apiKey := "user1", failed := false,
          detail := { inputTokens := 1234, outputTokens := 2000, reasoningTokens := 500,
                      cachedTokens := 1000, totalTokens := 0 } }
        { prompt := 5000000, completion := 25000000, cached := 500000 }
      = some
        { requests := 1, failedRequests := 0, inputTokens := 1234, outputTokens := 2000,
          reasoningTokens := 500, cachedTokens := 1000, totalTokens := 4734,
          costMicroUSD := 64170 } :=
  (claim_C6_cost_formula
      { apiKey := "user1", failed := false,
        detail := { inputTokens := 1234, outputTokens := 2000, reasoningTokens := 500,
                    cachedTokens := 1000, totalTokens := 0 } }
      { prompt := 5000000, completion := 25000000, cached := 500000 }
      (by decide) (by decide) (by decide) (by decide) (by decide) (by decide)
      (by decide) (by decide) (by decide)).trans (by decide)

/-- C5: for every model with a non-empty canonical key (and stores that
never hold a row for the empty key, which `UpsertModelPrice` guarantees),
price resolution returns the first hit in the order saved-exact,
saved-base, default-exact, default-base, and a zero price tagged `missing`
when none exists. -/
theorem claim_C5_price_resolution (saved defaults : PriceMap) (model : String)
    (hm : normaliseModelKeyL model.data ≠ [])
    (hs : lookupPrice saved [] = none) (hd : lookupPrice defaults [] = none) :
    ResolvePriceMicro saved defaults model
      = .ok (resolvePriceSpec saved defaults (normaliseModelKeyL model.data)
          (stripThinkingVariantL (normaliseModelKeyL model.data))) := by
  unfold ResolvePriceMicro resolvePriceSpec
  rw [if_neg hm]
  by_cases hb : stripThinkingVariantL (normaliseModelKeyL model.data) ≠ []
      ∧ stripThinkingVariantL (normaliseModelKeyL model.data) ≠ normaliseModelKeyL model.data
  · simp only [if_pos hb]
    cases h1 : lookupPrice saved (normaliseModelKeyL model.data) with
    | some p => rfl
    | none =>
      cases h2 : lookupPrice saved (stripThinkingVariantL (normaliseModelKeyL model.data)) with
      | some p => rfl
      | none =>
        cases h3 : lookupPrice defaults (normaliseModelKeyL model.data) with
        | some p => rfl
        | none =>
          cases h4 :
              lookupPrice defaults (stripThinkingVariantL (normaliseModelKeyL model.data)) with
          | some p => rfl
          | none => rfl
  · simp only [if_neg hb]
    have hb' : stripThinkingVariantL (normaliseModelKeyL model.data) = []
        ∨ stripThinkingVariantL (normaliseModelKeyL model.data)
          = normaliseModelKeyL model.data := by
      by_cases h1 : stripThinkingVariantL (normaliseModelKeyL model.data) = []
      · exact Or.inl h1
      · right
        by_contra h2
        exact hb ⟨h1, h2⟩
    rcases hb' with hb' | hb'
    · rw [hb', hs, hd]
      cases h1 : lookupPrice saved (normaliseModelKeyL model.data) with
      | some p => rfl
      | none =>
        cases h3 : lookupPrice defaults (normaliseModelKeyL model.data) with
        | some p => rfl
        | none => rfl
    · rw [hb']
      cases h1 : lookupPrice saved (normaliseModelKeyL model.data) with
      | some p => rfl
      | none =>
        cases h3 : lookupPrice defaults (normaliseModelKeyL model.data) with
        | some p => rfl
        | none => rfl

/-- Witness for C5: the built-in default resolves a thinking variant
through its base key, and an unknown model resolves to a zero price with
source `missing`. -/
theorem claim_C5_price_resolution_witness :
    ResolvePriceMicro [] DefaultPrices "claude-opus-4-5-20251101-thinking(8192)"
        = .ok ({ prompt := 5000000, completion := 25000000, cached := 500000 },
            "default".data) ∧
      ResolvePriceMicro [] DefaultPrices "mystery-model"
        = .ok ({ prompt := 0, completion := 0, cached := 0 }, "missing".data) :=
  ⟨(claim_C5_price_resolution [] DefaultPrices "claude-opus-4-5-20251101-thinking(8192)"
        (by decide) (by decide) (by decide)).trans (congrArg Except.ok (by decide)),
    (claim_C5_price_resolution [] DefaultPrices "mystery-model"
        (by decide) (by decide) (by decide)).trans (congrArg Except.ok (by decide))⟩

/-- C7: after `SanitizeAPIKeyPolicies`, client keys are non-empty and
trimmed, every daily-limit value is positive with a lowercased trimmed
model key, the daily budget is non-negative, no two entries share a client
key, and each surviving entry is the normalisation of the *last* input
entry with that (trimmed) client key. -/
theorem claim_C7_sanitize (l : List APIKeyPolicy) :
    ((SanitizeAPIKeyPolicies l).map (fun p => p.apiKey)).Nodup ∧
      ∀ p ∈ SanitizeAPIKeyPolicies l,
        p.apiKey.data ≠ [] ∧
          goTrim p.apiKey.data = p.apiKey.data ∧
          (∀ kv ∈ p.dailyLimits, 0 < kv.2 ∧ kv.1.data = goLower (goTrim kv.1.data)) ∧
          0 ≤ p.dailyBudgetUSD ∧
          ((l.filter (fun e => goTrim e.apiKey.data = p.apiKey.data)).getLast?).map
            normalizePolicyEntry = some p := by
  unfold SanitizeAPIKeyPolicies
  obtain ⟨hnodup, hmem, hlast⟩ :=
    sanitize_foldl_inv l [] [] (by simp) (by simp) (by simp)
  refine ⟨hnodup, ?_⟩
  intro p hp
  rcases hmem p hp with ⟨e, he, hpe⟩
  refine ⟨?_, ?_, ?_, ?_, ?_⟩
  · rw [hpe, normalizePolicyEntry_apiKey]
    exact he
  · rw [hpe, normalizePolicyEntry_apiKey, goTrim_goTrim]
  · intro kv hkv
    rw [hpe] at hkv
    exact normalizeDailyLimits_good e.dailyLimits kv hkv
  · rw [hpe]
    exact normalizePolicyEntry_budget_nonneg e
  · have hl := hlast p hp
    rwa [List.nil_append] at hl

/-- Witness for C7: three entries — a stale `" k1 "` entry with a negative
budget and a zero limit, a later duplicate `"k1"`, and a blank key — leave
exactly the later `"k1"` entry, with distinct keys and a clamped budget. -/
theorem claim_C7_sanitize_witness :
    ((SanitizeAPIKeyPolicies
          [⟨" k1 ", [], ⟨⟨false, "", []⟩⟩, none, [("Claude-Opus-4-6 ", 2), ("x", 0)], -1⟩,
            ⟨"k1", [], ⟨⟨false, "", []⟩⟩, none, [("m", 3)], 5⟩,
            ⟨"  ", [], ⟨⟨false, "", []⟩⟩, none, [], 0⟩]).map (fun p => p.apiKey)).Nodup ∧
      0 ≤ (normalizePolicyEntry
          ⟨"k1", [], ⟨⟨false, "", []⟩⟩, none, [("m", 3)], 5⟩).dailyBudgetUSD :=
  ⟨(claim_C7_sanitize
      [⟨" k1 ", [], ⟨⟨false, "", []⟩⟩, none, [("Claude-Opus-4-6 ", 2), ("x", 0)], -1⟩,
        ⟨"k1", [], ⟨⟨false, "", []⟩⟩, none, [("m", 3)], 5⟩,
        ⟨"  ", [], ⟨⟨false, "", []⟩⟩, none, [], 0⟩]).1,
    ((claim_C7_sanitize
        [⟨" k1 ", [], ⟨⟨false, "", []⟩⟩, none, [("Claude-Opus-4-6 ", 2), ("x", 0)], -1⟩,
          ⟨"k1", [], ⟨⟨false, "", []⟩⟩, none, [("m", 3)], 5⟩,
          ⟨"  ", [], ⟨⟨false, "", []⟩⟩, none, [], 0⟩]).2
      (normalizePolicyEntry ⟨"k1", [], ⟨⟨false, "", []⟩⟩, none, [("m", 3)], 5⟩)
      (by decide)).2.2.2.1⟩

theorem find?_mapVal (fields : List (String × Json)) (n : String) (f : String → Json → Json) :
    ((fields.map (fun kv => (kv.1, f kv.1 kv.2))).find? (fun kv => kv.1 = n)).map
        (fun kv => kv.2)
      = ((fields.find? (fun kv => kv.1 = n)).map (fun kv => kv.2)).map (f n) := by
  induction fields with
  | nil => rfl
  | cons kv t ih =>
    by_cases hk : kv.1 = n
    · rw [List.map_cons, List.find?_cons_of_pos _ (by simp [hk]),
        List.find?_cons_of_pos _ (by simp [hk])]
      simp [hk]
    · rw [List.map_cons, List.find?_cons_of_neg _ (by simp [hk]),
        List.find?_cons_of_neg _ (by simp [hk])]
      exact ih

theorem setExistingField_eq_mapVal (fields : List (String × Json)) (n : String) (v : Json) :
    setExistingField fields n v
      = fields.map (fun kv => (kv.1, if kv.1 = n then v else kv.2)) := by
  unfold setExistingField
  have hfun : (fun kv : String × Json => if kv.1 = n then (kv.1, v) else kv)
      = (fun kv : String × Json => (kv.1, if kv.1 = n then v else kv.2)) := by
    funext kv
    by_cases h : kv.1 = n
    · simp [h]
    · simp [h]
  rw [hfun]

theorem messageMap_eq_mapVal (fields : List (String × Json)) (m : String) :
    (fields.map
        (fun kv => if kv.1 = "message" then (kv.1, rewriteMessageField kv.2 m) else kv))
      = fields.map
          (fun kv => (kv.1, if kv.1 = "message" then rewriteMessageField kv.2 m else kv.2)) := by
  have hfun : (fun kv : String × Json =>
        if kv.1 = "message" then (kv.1, rewriteMessageField kv.2 m) else kv)
      = (fun kv : String × Json =>
          (kv.1, if kv.1 = "message" then rewriteMessageField kv.2 m else kv.2)) := by
    funext kv
    by_cases h : kv.1 = "message"
    · simp [h]
    · simp [h]
  rw [hfun]

theorem lookupField_setExisting_self (fields : List (String × Json)) (n : String) (v : Json) :
    (Json.obj (setExistingField fields n v)).lookupField n
      = ((Json.obj fields).lookupField n).map (fun _ => v) := by
  show ((setExistingField fields n v).find? (fun kv => kv.1 = n)).map (fun kv => kv.2) = _
  rw [setExistingField_eq_mapVal,
    find?_mapVal fields n (fun k x => if k = n then v else x)]
  have : (fun x : Json => if n = n then v else x) = (fun _ : Json => v) := by
    funext x
    rw [if_pos rfl]
  show _ = ((fields.find? (fun kv => kv.1 = n)).map (fun kv => kv.2)).map (fun _ => v)
  rw [this]

theorem lookupField_setExisting_other (fields : List (String × Json)) (n n' : String)
    (v : Json) (hne : n' ≠ n) :
    (Json.obj (setExistingField fields n v)).lookupField n'
      = (Json.obj fields).lookupField n' := by
  show ((setExistingField fields n v).find? (fun kv => kv.1 = n')).map (fun kv => kv.2) = _
  rw [setExistingField_eq_mapVal,
    find?_mapVal fields n' (fun k x => if k = n then v else x)]
  have : (fun x : Json => if n' = n then v else x) = (fun x : Json => x) := by
    funext x
    rw [if_neg hne]
  rw [this]
  show Option.map (fun x => x) ((fields.find? (fun kv => kv.1 = n')).map (fun kv => kv.2))
      = (fields.find? (fun kv => kv.1 = n')).map (fun kv => kv.2)
  cases fields.find? (fun kv => kv.1 = n') <;> rfl

theorem lookupField_rewriteMessageField (x : Json) (m : String) :
    (rewriteMessageField x m).lookupField "model"
      = (x.lookupField "model").map (fun _ => Json.str m) := by
  cases x with
  | obj f => exact lookupField_setExisting_self f "model" (.str m)
  | null => rfl
  | bool b => rfl
  | num n => rfl
  | str s => rfl
  | arr es => rfl

theorem topModel_rewrite (j : Json) (m : String) (hm : m ≠ "") :
    topModel (rewriteResponseModelFields j m) = (topModel j).map (fun _ => Json.str m) := by
  unfold rewriteResponseModelFields
  rw [if_neg hm]
  cases j with
  | obj fields =>
    show (Json.obj _).lookupField "model" = ((Json.obj fields).lookupField "model").map _
    rw [messageMap_eq_mapVal]
    show (((setExistingField fields "model" (.str m)).map
        (fun kv => (kv.1, if kv.1 = "message" then rewriteMessageField kv.2 m else kv.2))).find?
          (fun kv => kv.1 = "model")).map (fun kv => kv.2) = _
    rw [find?_mapVal _ "model" (fun k x => if k = "message" then rewriteMessageField x m else x)]
    have hid : (fun x : Json => if ("model" : String) = "message"
        then rewriteMessageField x m else x) = (fun x : Json => x) := by
      funext x
      rw [if_neg (by decide)]
    rw [hid]
    have h1 := lookupField_setExisting_self fields "model" (Json.str m)
    show ((Json.obj (setExistingField fields "model" (.str m))).lookupField "model").map
        (fun x => x) = _
    rw [h1]
    cases (Json.obj fields).lookupField "model" <;> rfl
  | null => rfl
  | bool b => rfl
  | num n => rfl
  | str s => rfl
  | arr es => rfl

theorem messageModel_rewrite (j : Json) (m : String) (hm : m ≠ "") :
    messageModel (rewriteResponseModelFields j m)
      = (messageModel j).map (fun _ => Json.str m) := by
  unfold rewriteResponseModelFields
  cases j with
  | obj fields =>
    rw [if_neg hm]
    show messageModel (Json.obj ((setExistingField fields "model" (.str m)).map
        (fun kv => if kv.1 = "message" then (kv.1, rewriteMessageField kv.2 m) else kv)))
      = (messageModel (Json.obj fields)).map (fun _ => Json.str m)
    unfold messageModel
    rw [messageMap_eq_mapVal]
    have hlook : (Json.obj ((setExistingField fields "model" (.str m)).map
        (fun kv => (kv.1, if kv.1 = "message" then rewriteMessageField kv.2 m else kv.2)))).lookupField
          "message"
        = ((Json.obj (setExistingField fields "model" (.str m))).lookupField "message").map
            (fun x => rewriteMessageField x m) := by
      show (((setExistingField fields "model" (.str m)).map
          (fun kv => (kv.1, if kv.1 = "message" then rewriteMessageField kv.2 m else kv.2))).find?
            (fun kv => kv.1 = "message")).map (fun kv => kv.2) = _
      rw [find?_mapVal _ "message"
        (fun k x => if k = "message" then rewriteMessageField x m else x)]
      have : (fun x : Json => if ("message" : String) = "message"
          then rewriteMessageField x m else x) = (fun x => rewriteMessageField x m) := by
        funext x
        rw [if_pos rfl]
      rw [this]
      rfl
    rw [hlook, lookupField_setExisting_other fields "model" "message" (.str m) (by decide)]
    cases (Json.obj fields).lookupField "message" with
    | none => rfl
    | some x =>
      show (rewriteMessageField x m).lookupField "model"
          = ((x.lookupField "model").map (fun _ => Json.str m))
      exact lookupField_rewriteMessageField x m
  | null => rw [if_neg hm]; rfl
  | bool b => rw [if_neg hm]; rfl
  | num n => rw [if_neg hm]; rfl
  | str s => rw [if_neg hm]; rfl
  | arr es => rw [if_neg hm]; rfl

/-- C1 (spec-modelled: the masquerade rewriter and its wiring are not under
the provided sources).  When failover has occurred, every payload returned
to the client has its `model` rewritten to the client-requested model at
top level and at `message.model` — whole JSON bodies on the non-streaming
path, and raw-JSON chunks and each `data: <json>` SSE line on the
streaming path, with `[DONE]`/non-JSON data passed through; when failover
is inactive, every payload is returned identical to the upstream bytes. -/
theorem claim_C1_model_masquerade (m : String) (body : Json) (c : StreamChunkBody)
    (hm : m ≠ "") :
    maskNonStreamingResponse false m body = body ∧
      maskStreamChunk false m c = c ∧
      topModel (maskNonStreamingResponse true m body)
        = (topModel body).map (fun _ => Json.str m) ∧
      messageModel (maskNonStreamingResponse true m body)
        = (messageModel body).map (fun _ => Json.str m) ∧
      (∀ j, maskStreamChunk true m (.rawJson j)
        = .rawJson (rewriteResponseModelFields j m)) ∧
      (∀ lines, maskStreamChunk true m (.sse lines)
        = .sse (lines.map (fun l =>
            match l with
            | SSEData.json j => SSEData.json (rewriteResponseModelFields j m)
            | SSEData.nonJson s => SSEData.nonJson s))) ∧
      (∀ s, maskStreamChunk true m (.rawOther s) = .rawOther s) := by
  refine ⟨rfl, rfl, ?_, ?_, ?_, ?_, ?_⟩
  · show topModel (rewriteResponseModelFields body m) = _
    exact topModel_rewrite body m hm
  · show messageModel (rewriteResponseModelFields body m) = _
    exact messageModel_rewrite body m hm
  · intro j
    show rewriteStreamChunkModelFields (.rawJson j) m = _
    unfold rewriteStreamChunkModelFields
    rw [if_neg hm]
  · intro lines
    show rewriteStreamChunkModelFields (.sse lines) m = _
    unfold rewriteStreamChunkModelFields
    rw [if_neg hm]
  · intro s
    show rewriteStreamChunkModelFields (.rawOther s) m = _
    unfold rewriteStreamChunkModelFields
    rw [if_neg hm]

/-- Witness for C1 at the source's test vectors: with failover active the
top-level and nested models read back as the client model and `[DONE]`
lines survive untouched; with failover inactive the body is unchanged. -/
theorem claim_C1_model_masquerade_witness :
    maskNonStreamingResponse false "claude-opus-4-6"
        (.obj [("id", .str "msg_123"), ("model", .str "gpt-5.2")])
      = .obj [("id", .str "msg_123"), ("model", .str "gpt-5.2")] ∧
    topModel (maskNonStreamingResponse true "claude-opus-4-6"
        (.obj [("id", .str "msg_123"), ("model", .str "gpt-5.2")]))
      = some (.str "claude-opus-4-6") ∧
    messageModel (maskNonStreamingResponse true "claude-opus-4-6"
        (.obj [("type", .str "message_start"),
          ("message", .obj [("model", .str "gpt-5.2"), ("role", .str "assistant")])]))
      = some (.str "claude-opus-4-6") ∧
    maskStreamChunk true "claude-opus-4-6" (.sse [SSEData.nonJson "[DONE]"])
      = .sse [SSEData.nonJson "[DONE]"] :=
  ⟨(claim_C1_model_masquerade "claude-opus-4-6"
      (.obj [("id", .str "msg_123"), ("model", .str "gpt-5.2")])
      (.sse []) (by decide)).1,
    ((claim_C1_model_masquerade "claude-opus-4-6"
        (.obj [("id", .str "msg_123"), ("model", .str "gpt-5.2")])
        (.sse []) (by decide)).2.2.1).trans rfl,
    ((claim_C1_model_masquerade "claude-opus-4-6"
        (.obj [("type", .str "message_start"),
          ("message", .obj [("model", .str "gpt-5.2"), ("role", .str "assistant")])])
        (.sse []) (by decide)).2.2.2.1).trans rfl,
    ((claim_C1_model_masquerade "claude-opus-4-6" (.obj [])
        (.sse [SSEData.nonJson "[DONE]"]) (by decide)).2.2.2.2.2.1
      [SSEData.nonJson "[DONE]"]).trans rfl⟩

/-- C4: once the streaming goroutine has emitted at least one payload byte
(`sentPayload` latched), no bootstrap retry and no failover is ever
attempted — `execStream` is never re-invoked — and the first subsequent
upstream error is surfaced on the error channel unchanged (with nothing
further emitted). -/
theorem claim_C4_no_retry_after_first_byte (cfg : StreamLoopCfg) (st : StreamLoopState)
    (chunks : List UpChunk) :
    st.sentPayload = true →
      (runStreamLoop cfg st chunks).2.2 = 0 ∧
        (∀ e rest, chunks = UpChunk.errc e :: rest →
          runStreamLoop cfg st chunks = ([], some (surfaceMsg e), 0)) := by
  induction chunks generalizing st with
  | nil =>
    intro hsent
    constructor
    · simp [runStreamLoop]
    · intro e rest h
      exact absurd h (by simp)
  | cons c rest ih =>
    intro hsent
    cases c with
    | payload d =>
      have hst' : ({ st with sentPayload := true } : StreamLoopState).sentPayload = true := rfl
      constructor
      · simp only [runStreamLoop]
        by_cases hd : d ≠ []
        · rw [if_pos hd]
          show (runStreamLoop cfg { st with sentPayload := true } rest).2.2 = 0
          exact (ih _ hst').1
        · rw [if_neg hd]
          exact (ih _ hsent).1
      · intro e rest' h
        exact absurd h (by simp)
    | errc e =>
      have hbg : ¬ bootstrapGate cfg st e = true := by
        simp [bootstrapGate, hsent]
      have hfg : ¬ failoverGate cfg st e = true := by
        simp [failoverGate, hsent]
      constructor
      · simp only [runStreamLoop]
        rw [dif_neg hbg, dif_neg hfg]
      · intro e' rest' h
        injection h with h1 h2
        injection h1 with h3
        subst h3
        simp only [runStreamLoop]
        rw [dif_neg hbg, dif_neg hfg]

/-- Witness for C4: with the latch set, an immediate upstream 429 error is
surfaced unchanged, with zero payloads and zero `execStream`
re-invocations, although failover is configured, eligible and
resolvable. -/
theorem claim_C4_no_retry_after_first_byte_witness :
    runStreamLoop
        { maxBootstrapRetries := 3, failoverEnabled := true,
          failoverTargetModel := "gpt-5.2(high)", failoverResolvable := true,
          failoverModel := "gpt-5.2(high)", failoverProvidersClaude := false,
          execResults := fun _ => .ok [] }
        { sentPayload := true, bootstrapRetries := 0, failoverAttempted := false,
          providersClaude := true, normalizedModel := "claude-opus-4-6", calls := 0 }
        [UpChunk.errc { statusCode := 429, msg := "rate limited".data }]
      = ([], some (surfaceMsg { statusCode := 429, msg := "rate limited".data }), 0) :=
  (claim_C4_no_retry_after_first_byte
      { maxBootstrapRetries := 3, failoverEnabled := true,
        failoverTargetModel := "gpt-5.2(high)", failoverResolvable := true,
        failoverModel := "gpt-5.2(high)", failoverProvidersClaude := false,
        execResults := fun _ => .ok [] }
      { sentPayload := true, bootstrapRetries := 0, failoverAttempted := false,
        providersClaude := true, normalizedModel := "claude-opus-4-6", calls := 0 }
      [UpChunk.errc { statusCode := 429, msg := "rate limited".data }] rfl).2
    { statusCode := 429, msg := "rate limited".data } [] rfl

/-- Witness for C10: `*` does not match the empty string, and a starless
pattern matches by case-insensitive trimmed equality. -/
theorem claim_C10_matchWildcard_base_witness :
    MatchWildcard "*" "" = false ∧
      MatchWildcard " Claude-Opus-4-6 " "claude-opus-4-6" = true :=
  ⟨(claim_C10_matchWildcard_base "*" "").1 (by decide),
    ((claim_C10_matchWildcard_base " Claude-Opus-4-6 " "claude-opus-4-6").2
        (by decide) (by decide) (by decide)).trans (by decide)⟩

end CLIProxy
